import Mathlib

/-!
Shallow embedding of the Signadot/Vercel preview example's core logic:
the Target Resolver (`frontend/src/lib/config/api.ts`), the Forwarding
Gateway (`frontend/src/app/api/proxy/[...path]/route.ts`) and the
Liveness Poller (`frontend/src/components/BackendStatus.tsx`).

Strings are modelled as `List Char` (`Str`), so that the JavaScript
string operations used by the source (`includes`, `startsWith`,
`endsWith`, `slice`, concatenation) become plain list operations.
-/

/-- Strings of the embedded program: JavaScript strings as lists of characters. -/
abbrev Str := List Char

namespace SignadotExample

/-! ## JavaScript string primitives used by the source -/

/-- Predicate `charsIsPrefix pat s` : `pat` is a prefix of `s` (character-by-character). -/
def charsIsPrefix : Str → Str → Bool
  | [], _ => true
  | _ :: _, [] => false
  | p :: ps, c :: cs => p == c && charsIsPrefix ps cs

/-- JavaScript `s.includes(pat)`: `pat` occurs as a contiguous substring of `s`. -/
def charsIncludes (pat : Str) : Str → Bool
  | [] => charsIsPrefix pat []
  | c :: cs => charsIsPrefix pat (c :: cs) || charsIncludes pat cs

/-- JavaScript `s.endsWith(c)` for a one-character suffix. -/
def endsWithChar (s : Str) (c : Char) : Bool :=
  match s.getLast? with
  | some d => d == c
  | none => false

theorem charsIsPrefix_iff (pat s : Str) :
    charsIsPrefix pat s = true ↔ ∃ r, s = pat ++ r := by
  induction pat generalizing s with
  | nil => simp [charsIsPrefix]
  | cons p ps ih =>
    cases s with
    | nil =>
      simp [charsIsPrefix]
    | cons c cs =>
      simp only [charsIsPrefix, Bool.and_eq_true, beq_iff_eq, ih]
      constructor
      · rintro ⟨rfl, r, rfl⟩
        exact ⟨r, rfl⟩
      · rintro ⟨r, hr⟩
        cases hr
        exact ⟨rfl, r, rfl⟩

theorem charsIncludes_iff (pat s : Str) :
    charsIncludes pat s = true ↔ ∃ a b, s = a ++ pat ++ b := by
  induction s with
  | nil =>
    simp only [charsIncludes, charsIsPrefix_iff]
    constructor
    · rintro ⟨r, hr⟩
      exact ⟨[], r, by simpa using hr⟩
    · rintro ⟨a, b, hab⟩
      have ha : a = [] := by
        cases a with
        | nil => rfl
        | cons x xs => simp at hab
      subst ha
      exact ⟨b, by simpa using hab⟩
  | cons c cs ih =>
    simp only [charsIncludes, Bool.or_eq_true, charsIsPrefix_iff, ih]
    constructor
    · rintro (⟨r, hr⟩ | ⟨a, b, hab⟩)
      · exact ⟨[], r, by simpa using hr⟩
      · exact ⟨c :: a, b, by simp [hab]⟩
    · rintro ⟨a, b, hab⟩
      cases a with
      | nil =>
        exact Or.inl ⟨b, by simpa using hab⟩
      | cons x xs =>
        simp only [List.cons_append, List.cons.injEq] at hab
        exact Or.inr ⟨xs, b, hab.2⟩

theorem getLast?_snoc (l : Str) (a : Char) : (l ++ [a]).getLast? = some a := by
  induction l with
  | nil => rfl
  | cons x xs ih =>
    cases xs with
    | nil => rfl
    | cons y ys => simpa using ih

theorem snoc_inj {l₁ l₂ : Str} {a b : Char}
    (h : l₁ ++ [a] = l₂ ++ [b]) : l₁ = l₂ ∧ a = b := by
  have hr := congrArg List.reverse h
  simp only [List.reverse_append, List.reverse_cons, List.reverse_nil,
    List.nil_append, List.cons_append, List.cons.injEq] at hr
  exact ⟨by simpa using congrArg List.reverse hr.2, hr.1⟩

/-- Appending a character that the pattern does not end in cannot create a new
occurrence of the pattern. -/
theorem charsIncludes_snoc (pat s : Str) (c : Char)
    (h : ∀ t, pat ≠ t ++ [c]) :
    charsIncludes pat (s ++ [c]) = charsIncludes pat s := by
  cases hs : charsIncludes pat s with
  | true =>
    obtain ⟨a, b, rfl⟩ := (charsIncludes_iff pat _).mp hs
    exact (charsIncludes_iff pat _).mpr ⟨a, b ++ [c], by simp⟩
  | false =>
    cases ht : charsIncludes pat (s ++ [c]) with
    | false => rfl
    | true =>
      exfalso
      obtain ⟨a, b, hab⟩ := (charsIncludes_iff pat _).mp ht
      rcases b.eq_nil_or_concat with rfl | ⟨b', d, rfl⟩
      · rcases pat.eq_nil_or_concat with rfl | ⟨q, e, rfl⟩
        · have : charsIncludes ([] : Str) s = true := by
            cases s <;> simp [charsIncludes, charsIsPrefix]
          rw [hs] at this; exact Bool.false_ne_true this
        · have hab2 : s ++ [c] = (a ++ q) ++ [e] := by
            simpa [List.append_assoc] using hab
          obtain ⟨_, he⟩ := snoc_inj hab2
          exact h q (by rw [he, List.concat_eq_append])
      · have hab' : s ++ [c] = (a ++ pat ++ b') ++ [d] := by
          simpa [List.append_assoc] using hab
        obtain ⟨hs', _⟩ := snoc_inj hab'
        have : charsIncludes pat s = true :=
          (charsIncludes_iff pat s).mpr ⟨a, b', hs'⟩
        rw [hs] at this; exact Bool.false_ne_true this

/-! ## Target Resolver — `frontend/src/lib/config/api.ts`

The configured upstream base address (`API_URL`) is a module-level constant
read once from the environment; it is modelled as an explicit argument so the
resolver can be stated for every configuration. -/

/-- Function `isSignadotUrl` from `api.ts` (and identically in `route.ts`):
`url.includes('.preview.signadot.com') || url.includes('.sb.signadot.com')`. -/
def isSignadotUrl (url : Str) : Bool :=
  charsIncludes (".preview.signadot.com").data url ||
    charsIncludes (".sb.signadot.com").data url

/-- The leading-separator normalization inside `getApiUrl`:
`endpoint.startsWith('/') ? endpoint.slice(1) : endpoint`. -/
def cleanEndpoint : Str → Str
  | '/' :: rest => rest
  | e => e

/-- Function `getApiUrl` from `api.ts`, with the configured `API_URL` passed explicitly.
When the configured URL is a Signadot URL the call is routed through the local
proxy route; otherwise the base (trailing slash stripped) is joined with the
normalized endpoint. -/
def getApiUrl (apiUrl : Str) (endpoint : Str) : Str :=
  let cleanEp := cleanEndpoint endpoint
  if isSignadotUrl apiUrl then
    ("/api/proxy/").data ++ cleanEp
  else
    let baseUrl := if endsWithChar apiUrl '/' then apiUrl.dropLast else apiUrl
    baseUrl ++ '/' :: cleanEp

/-- Function `getApiHeaders` from `api.ts`: a content-type header merged with
caller-supplied extra headers (the spread overrides the base on key clash,
modelled by appending the extras after the base pair). -/
def getApiHeaders (additionalHeaders : List (Str × Str)) : List (Str × Str) :=
  (("Content-Type").data, ("application/json").data) :: additionalHeaders

theorem isSignadotUrl_snoc_slash (b : Str) :
    isSignadotUrl (b ++ ['/']) = isSignadotUrl b := by
  have hne : ∀ (pat : Str), pat.getLast? = some 'm' →
      ∀ t, pat ≠ t ++ ['/'] := by
    intro pat hm t ht
    rw [ht, getLast?_snoc] at hm
    simp at hm
  unfold isSignadotUrl
  rw [charsIncludes_snoc _ b _ (hne _ (by decide)),
    charsIncludes_snoc _ b _ (hne _ (by decide))]

theorem cleanEndpoint_cons_slash (p : Str) : cleanEndpoint ('/' :: p) = p := rfl

theorem cleanEndpoint_eq_self (p : Str) (h : p.head? ≠ some '/') :
    cleanEndpoint p = p := by
  cases p with
  | nil => rfl
  | cons c cs =>
    have hc : c ≠ '/' := by simpa using h
    unfold cleanEndpoint
    split
    · next rest heq =>
      exact absurd (List.cons.inj heq).1 hc
    · rfl

/-- Claim C2 (confirmed): `isSignadotUrl` returns `true` for every address ending in either
recognized sandbox suffix (`.preview.signadot.com`, `.sb.signadot.com`),
returns `false` for `http://localhost:3000`, and returns `false` for every
address in which neither suffix occurs as a substring. Purity and determinism
hold by construction: `isSignadotUrl` is a total function of its string
argument alone. -/
theorem claim_C2_isSignadotUrl_classification (u : Str) :
    (((∃ t, u = t ++ (".preview.signadot.com").data) ∨
      (∃ t, u = t ++ (".sb.signadot.com").data)) → isSignadotUrl u = true) ∧
    isSignadotUrl ("http://localhost:3000").data = false ∧
    ((∀ a b, u ≠ a ++ (".preview.signadot.com").data ++ b) →
     (∀ a b, u ≠ a ++ (".sb.signadot.com").data ++ b) →
      isSignadotUrl u = false) := by
  refine ⟨?_, by decide, ?_⟩
  · rintro (⟨t, rfl⟩ | ⟨t, rfl⟩) <;>
      simp only [isSignadotUrl, Bool.or_eq_true] <;>
      [exact Or.inl ((charsIncludes_iff _ _).mpr ⟨t, [], by simp⟩);
       exact Or.inr ((charsIncludes_iff _ _).mpr ⟨t, [], by simp⟩)]
  · intro h1 h2
    simp only [isSignadotUrl, Bool.or_eq_false_iff]
    constructor
    · cases hc : charsIncludes (".preview.signadot.com").data u with
      | false => rfl
      | true =>
        obtain ⟨a, b, hab⟩ := (charsIncludes_iff _ _).mp hc
        exact absurd hab (h1 a b)
    · cases hc : charsIncludes (".sb.signadot.com").data u with
      | false => rfl
      | true =>
        obtain ⟨a, b, hab⟩ := (charsIncludes_iff _ _).mp hc
        exact absurd hab (h2 a b)

theorem claim_C2_witness :
    isSignadotUrl ("https://demo.preview.signadot.com").data = true ∧
    isSignadotUrl ("http://localhost:3000").data = false ∧
    isSignadotUrl ("https://api.example.org").data = false := by
  refine ⟨(claim_C2_isSignadotUrl_classification _).1
      (Or.inl ⟨("https://demo").data, by decide⟩),
    (claim_C2_isSignadotUrl_classification []).2.1,
    (claim_C2_isSignadotUrl_classification _).2.2 ?_ ?_⟩ <;>
  · intro a b hab
    have : charsIncludes _ (("https://api.example.org").data) = true :=
      (charsIncludes_iff _ _).mpr ⟨a, b, hab⟩
    exact absurd this (by decide)

/-- Claim C6 (confirmed): endpoint resolution by `getApiUrl`: when the configured base is
classified isolated (a Signadot URL), `getApiUrl base "health"` is the fixed
local indirection path `/api/proxy/health`; when it is not isolated, the
result is the base joined to the normalized path with exactly one separator,
whether or not the configured base carries a trailing slash — for every
logical path `p`, not just `"health"`. -/
theorem claim_C6_getApiUrl_resolution (b p : Str) :
    (isSignadotUrl b = true →
      getApiUrl b ("health").data = ("/api/proxy/health").data) ∧
    (isSignadotUrl b = false → endsWithChar b '/' = false →
      getApiUrl b p = b ++ '/' :: cleanEndpoint p ∧
      getApiUrl (b ++ ['/']) p = b ++ '/' :: cleanEndpoint p) := by
  constructor
  · intro h
    simp [getApiUrl, h]
    rfl
  · intro h hslash
    constructor
    · simp [getApiUrl, h, hslash]
    · have h' : isSignadotUrl (b ++ ['/']) = false := by
        rw [isSignadotUrl_snoc_slash, h]
      have hs' : endsWithChar (b ++ ['/']) '/' = true := by
        simp [endsWithChar, getLast?_snoc]
      simp [getApiUrl, h', hs']

theorem claim_C6_witness :
    getApiUrl ("https://demo.preview.signadot.com").data ("health").data =
      ("/api/proxy/health").data ∧
    getApiUrl ("http://localhost:3000").data ("health").data =
      ("http://localhost:3000").data ++ '/' :: cleanEndpoint ("health").data ∧
    getApiUrl (("http://localhost:3000").data ++ ['/']) ("health").data =
      ("http://localhost:3000").data ++ '/' :: cleanEndpoint ("health").data := by
  refine ⟨(claim_C6_getApiUrl_resolution _ ("health").data).1 (by decide),
    ((claim_C6_getApiUrl_resolution _ ("health").data).2 (by decide) (by decide)).1,
    ((claim_C6_getApiUrl_resolution _ ("health").data).2 (by decide) (by decide)).2⟩

/-- Claim C7 as stated is false: the claim quantifies over every logical path
`p`; at `p = "/health"` (itself a valid logical path per the spec) the call
`getApiUrl base ('/' ++ p)` trims only one of the two leading separators, so
it differs from `getApiUrl base p`. -/
theorem claim_C7_counterexample :
    getApiUrl ("http://localhost:3000").data ('/' :: ("/health").data) ≠
      getApiUrl ("http://localhost:3000").data ("/health").data := by
  decide

/-- Claim C7, amended: for every logical path `p` that does not itself begin
with the separator, `getApiUrl base ('/' ++ p) = getApiUrl base p`; and
`getApiUrl` is deterministic — equal configuration and equal input give equal
output (it is a pure function of its two arguments). -/
theorem claim_C7_normalization :
    (∀ b p, p.head? ≠ some '/' →
      getApiUrl b ('/' :: p) = getApiUrl b p) ∧
    (∀ b b' p p', b = b' → p = p' → getApiUrl b p = getApiUrl b' p') := by
  constructor
  · intro b p h
    unfold getApiUrl
    rw [cleanEndpoint_cons_slash, cleanEndpoint_eq_self p h]
  · rintro b b' p p' rfl rfl
    rfl

theorem claim_C7_witness :
    getApiUrl ("http://localhost:3000").data ('/' :: ("health").data) =
      getApiUrl ("http://localhost:3000").data ("health").data :=
  claim_C7_normalization.1 _ _ (by decide)

/-! ## Forwarding Gateway — `frontend/src/app/api/proxy/[...path]/route.ts`

`handleProxyRequest` is shared by the five exported method handlers
(GET/POST/PUT/DELETE/PATCH). The module-level constants `BACKEND_API_URL`
and `SIGNADOT_API_KEY` become an explicit `ProxyConfig`; the network is an
explicit oracle mapping the outbound request the gateway builds to either a
thrown JavaScript value or an upstream response. The JSON.parse / re-serialize
round-trip of the success body (`JSON.parse` falling back to raw text) is kept
abstract as the raw upstream text, since no claim distinguishes the two. -/

/-- The HTTP methods with an exported handler in `route.ts`. -/
inductive Method where
  | get | post | put | delete | patch
deriving DecidableEq

/-- The guard `['POST', 'PUT', 'PATCH'].includes(method)` for body forwarding. -/
def Method.isWrite : Method → Bool
  | .post => true
  | .put => true
  | .patch => true
  | _ => false

/-- A thrown JavaScript value as the gateway's catch blocks see it:
either an `Error` instance carrying a `message`, or any other value. -/
inductive JsThrown where
  | jsError (message : Str)
  | nonError
deriving DecidableEq

/-- Message extraction `error instanceof Error ? error.message : 'Unknown error'`. -/
def JsThrown.toMessage : JsThrown → Str
  | .jsError m => m
  | .nonError => ("Unknown error").data

/-- Module-level configuration of `route.ts`: `BACKEND_API_URL` (with its
localhost default applied) and `SIGNADOT_API_KEY` (empty when unset). -/
structure ProxyConfig where
  backendApiUrl : Str
  signadotApiKey : Str
deriving DecidableEq

/-- One inbound call as `handleProxyRequest` observes it: the resolved
catch-all `params.path` (possibly absent), the serialized query string, the
inbound header list (never read by the gateway), and the result of
`request.text()` (which may throw). -/
structure InboundRequest where
  pathSegments : Option (List Str)
  searchParams : Str
  headers : List (Str × Str)
  bodyText : Except JsThrown Str

/-- The outbound request the gateway hands to `fetch`. -/
structure OutboundRequest where
  url : Str
  method : Method
  headers : List (Str × Str)
  body : Option Str
deriving DecidableEq

/-- A resolved `fetch` response as the gateway consumes it: `status`,
the `Access-Control-Allow-Origin` header (`headers.get` returns `null`
when absent), and the result of `backendResponse.text()` (which may throw). -/
structure UpstreamResponse where
  status : Nat
  corsAllowOrigin : Option Str
  textResult : Except JsThrown Str

/-- The network oracle: what `await fetch(...)` does with the outbound
request — throw, or resolve to an upstream response. -/
abbrev FetchOracle := OutboundRequest → Except JsThrown UpstreamResponse

/-- The gateway's reply: `NextResponse.json(data, {status, headers})`.
The body is either the upstream payload (raw text, JSON-parse attempted with
raw-text fallback) or the fixed error envelope object. -/
inductive ResponseBody where
  | upstream (raw : Str)
  | envelope (error : Str) (message : Str)
deriving DecidableEq

structure GatewayResponse where
  status : Nat
  headers : List (Str × Str)
  body : ResponseBody
deriving DecidableEq

/-- Slash-join of the catch-all segments: `/${pathSegments.join('/')}`. -/
def joinSegments : List Str → Str
  | [] => []
  | [s] => s
  | s :: rest => s ++ '/' :: joinSegments rest

/-- Lines 98-121 of `route.ts`: URL reconstruction and outbound header
construction. The header set is `{Content-Type: application/json}` plus the
`signadot-api-key` pair exactly when `isSignadotUrl()` holds of the configured
base and the configured key is truthy (a non-empty string). The inbound
request's headers are never consulted. -/
def buildOutboundRequest (cfg : ProxyConfig) (req : InboundRequest)
    (method : Method) : OutboundRequest :=
  let pathSegs := req.pathSegments.getD []
  let backendPath : Str :=
    if pathSegs.length > 0 then '/' :: joinSegments pathSegs else ['/']
  let backendUrl := cfg.backendApiUrl ++ backendPath
  let fullBackendUrl :=
    if req.searchParams ≠ [] then backendUrl ++ '?' :: req.searchParams
    else backendUrl
  let headers : List (Str × Str) :=
    if isSignadotUrl cfg.backendApiUrl && !cfg.signadotApiKey.isEmpty then
      [(("Content-Type").data, ("application/json").data),
       (("signadot-api-key").data, cfg.signadotApiKey)]
    else
      [(("Content-Type").data, ("application/json").data)]
  let body : Option Str :=
    if method.isWrite then
      match req.bodyText with
      | .ok t => some t
      | .error _ => none
    else none
  { url := fullBackendUrl, method := method, headers := headers, body := body }

/-- The fixed error envelope of the catch block (lines 163-172). -/
def proxyErrorResponse (e : JsThrown) : GatewayResponse :=
  { status := 500,
    headers := [(("Content-Type").data, ("application/json").data)],
    body := .envelope ("Failed to proxy request to backend").data e.toMessage }

/-- The success reply (lines 152-162): upstream status, JSON content type,
and `Access-Control-Allow-Origin` passed through only when
`backendResponse.headers.get(...)` is truthy — present **and** non-empty,
since the empty string is falsy in JavaScript. -/
def proxySuccessResponse (r : UpstreamResponse) (raw : Str) : GatewayResponse :=
  { status := r.status,
    headers :=
      (("Content-Type").data, ("application/json").data) ::
        (match r.corsAllowOrigin with
         | some v => if v ≠ [] then [(("Access-Control-Allow-Origin").data, v)] else []
         | none => []),
    body := .upstream raw }

/-- Function `handleProxyRequest` from `route.ts`: build the outbound request, execute
it through the oracle, read the body, and reply; every throw inside the `try`
(from `fetch` or from `backendResponse.text()`) lands in the single catch
block producing the 500 envelope. Total by construction: the caller never
sees an unhandled exception. -/
def handleProxyRequest (cfg : ProxyConfig) (req : InboundRequest)
    (method : Method) (fetchOracle : FetchOracle) : GatewayResponse :=
  let out := buildOutboundRequest cfg req method
  match fetchOracle out with
  | .error e => proxyErrorResponse e
  | .ok r =>
    match r.textResult with
    | .error e => proxyErrorResponse e
    | .ok raw => proxySuccessResponse r raw

/-- Claim C1 (confirmed): the outbound header set is exactly
`{Content-Type: application/json}`, plus `signadot-api-key` if and only if
the configured upstream is classified isolated and a non-empty credential is
configured; it is independent of the inbound request (in particular, of every
inbound client header), and any credential header that does appear outbound
carries the configured credential, never a client-supplied value. -/
theorem claim_C1_outbound_headers (cfg : ProxyConfig)
    (req req' : InboundRequest) (method method' : Method) :
    (buildOutboundRequest cfg req method).headers =
      (if isSignadotUrl cfg.backendApiUrl && !cfg.signadotApiKey.isEmpty then
        [(("Content-Type").data, ("application/json").data),
         (("signadot-api-key").data, cfg.signadotApiKey)]
       else
        [(("Content-Type").data, ("application/json").data)]) ∧
    (buildOutboundRequest cfg req method).headers =
      (buildOutboundRequest cfg req' method').headers ∧
    (∀ v, (("signadot-api-key").data, v) ∈
        (buildOutboundRequest cfg req method).headers →
      v = cfg.signadotApiKey ∧ isSignadotUrl cfg.backendApiUrl = true ∧
        cfg.signadotApiKey ≠ []) := by
  refine ⟨rfl, rfl, ?_⟩
  intro v hv
  simp only [buildOutboundRequest] at hv
  by_cases hcase :
      (isSignadotUrl cfg.backendApiUrl && !cfg.signadotApiKey.isEmpty) = true
  · rw [if_pos hcase] at hv
    rcases List.mem_cons.mp hv with h1 | hv2
    · have hfst : (("signadot-api-key").data : Str) = ("Content-Type").data :=
        congrArg Prod.fst h1
      exact absurd hfst (by decide)
    · have h2 := List.mem_singleton.mp hv2
      simp only [Bool.and_eq_true] at hcase
      obtain ⟨hsig, hkey⟩ := hcase
      refine ⟨congrArg Prod.snd h2, hsig, ?_⟩
      simpa using hkey
  · rw [if_neg hcase] at hv
    have h1 := List.mem_singleton.mp hv
    have hfst : (("signadot-api-key").data : Str) = ("Content-Type").data :=
      congrArg Prod.fst h1
    exact absurd hfst (by decide)

theorem claim_C1_witness :
    (buildOutboundRequest
        ⟨("https://demo.preview.signadot.com").data, ("secret-key").data⟩
        ⟨some [("health").data], [],
          [(("signadot-api-key").data, ("forged-by-client").data)],
          Except.ok []⟩ .get).headers =
      [(("Content-Type").data, ("application/json").data),
       (("signadot-api-key").data, ("secret-key").data)] ∧
    (buildOutboundRequest
        ⟨("https://demo.preview.signadot.com").data, ("secret-key").data⟩
        ⟨some [("health").data], [],
          [(("signadot-api-key").data, ("forged-by-client").data)],
          Except.ok []⟩ .get).headers =
      (buildOutboundRequest
        ⟨("https://demo.preview.signadot.com").data, ("secret-key").data⟩
        ⟨none, ('a' :: []), [], Except.ok ('b' :: [])⟩ .post).headers ∧
    ("secret-key").data = ("secret-key").data := by
  have h := claim_C1_outbound_headers
    ⟨("https://demo.preview.signadot.com").data, ("secret-key").data⟩
    ⟨some [("health").data], [],
      [(("signadot-api-key").data, ("forged-by-client").data)],
      Except.ok []⟩
    ⟨none, ('a' :: []), [], Except.ok ('b' :: [])⟩ .get .post
  refine ⟨?_, h.2.1, (h.2.2 (("secret-key").data) ?_).1⟩
  · rw [h.1]
    decide
  · rw [h.1]
    decide

/-- Claim C3 as stated is false in its non-emptiness clause: when the transport
throws an `Error` whose `message` is the empty string, the gateway dutifully
returns the 500 envelope but with `message = ""`, which is not a non-empty
diagnostic string. Concretely, a GET whose fetch rejects with `Error("")`
yields `{error: "Failed to proxy request to backend", message: ""}`. -/
theorem claim_C3_counterexample :
    handleProxyRequest ⟨("http://localhost:3000").data, []⟩
        ⟨some [("health").data], [], [], Except.ok []⟩ .get
        (fun _ => Except.error (.jsError [])) =
      { status := 500,
        headers := [(("Content-Type").data, ("application/json").data)],
        body := .envelope ("Failed to proxy request to backend").data [] } := by
  rfl

/-- Claim C3, amended: when the outbound call fails at the transport level
(the fetch, or the response-body read, throws), the gateway returns HTTP 500
with body exactly `{error: "Failed to proxy request to backend", message: m}`
where `m` is the thrown value's message — the `Error`'s own message, or
`"Unknown error"` for a non-`Error` throw — so `m` is non-empty except when
the thrown `Error` itself carries an empty message. This is the only path
producing the envelope, and the handler is total: the caller never sees an
unhandled exception. -/
theorem claim_C3_transport_failure :
    (∀ (cfg : ProxyConfig) (req : InboundRequest) (method : Method)
        (oracle : FetchOracle) (e : JsThrown),
      (oracle (buildOutboundRequest cfg req method) = Except.error e ∨
        (∃ r, oracle (buildOutboundRequest cfg req method) = Except.ok r ∧
          r.textResult = Except.error e)) →
      handleProxyRequest cfg req method oracle =
        { status := 500,
          headers := [(("Content-Type").data, ("application/json").data)],
          body := .envelope ("Failed to proxy request to backend").data
            e.toMessage } ∧
        (e.toMessage ≠ [] ∨ e = .jsError [])) ∧
    (∀ (cfg : ProxyConfig) (req : InboundRequest) (method : Method)
        (oracle : FetchOracle) (err m : Str),
      (handleProxyRequest cfg req method oracle).body = .envelope err m →
      err = ("Failed to proxy request to backend").data ∧
      ∃ e, JsThrown.toMessage e = m ∧
        (oracle (buildOutboundRequest cfg req method) = Except.error e ∨
          (∃ r, oracle (buildOutboundRequest cfg req method) = Except.ok r ∧
            r.textResult = Except.error e))) := by
  constructor
  · intro cfg req method oracle e he
    have hmsg : e.toMessage ≠ [] ∨ e = .jsError [] := by
      cases e with
      | jsError m =>
        cases m with
        | nil => exact Or.inr rfl
        | cons c cs => exact Or.inl (by simp [JsThrown.toMessage])
      | nonError => exact Or.inl (by decide)
    rcases he with he | ⟨r, hr, ht⟩
    · exact ⟨by simp [handleProxyRequest, he, proxyErrorResponse], hmsg⟩
    · exact ⟨by simp [handleProxyRequest, hr, ht, proxyErrorResponse], hmsg⟩
  · intro cfg req method oracle err m hb
    cases ho : oracle (buildOutboundRequest cfg req method) with
    | error e =>
      simp only [handleProxyRequest, ho, proxyErrorResponse,
        ResponseBody.envelope.injEq] at hb
      exact ⟨hb.1.symm, e, hb.2, Or.inl rfl⟩
    | ok r =>
      cases ht : r.textResult with
      | error e =>
        simp only [handleProxyRequest, ho, ht, proxyErrorResponse,
          ResponseBody.envelope.injEq] at hb
        exact ⟨hb.1.symm, e, hb.2, Or.inr ⟨r, rfl, ht⟩⟩
      | ok raw =>
        simp [handleProxyRequest, ho, ht, proxySuccessResponse] at hb

theorem claim_C3_witness :
    handleProxyRequest ⟨("http://localhost:3000").data, []⟩
        ⟨some [("health").data], [], [], Except.ok []⟩ .get
        (fun _ => Except.error (.jsError ("connect ECONNREFUSED").data)) =
      { status := 500,
        headers := [(("Content-Type").data, ("application/json").data)],
        body := .envelope ("Failed to proxy request to backend").data
          ("connect ECONNREFUSED").data } ∧
    (JsThrown.jsError ("connect ECONNREFUSED").data).toMessage ≠ [] :=
  have h := claim_C3_transport_failure.1
    ⟨("http://localhost:3000").data, []⟩
    ⟨some [("health").data], [], [], Except.ok []⟩ .get
    (fun _ => Except.error (.jsError ("connect ECONNREFUSED").data))
    (.jsError ("connect ECONNREFUSED").data) (Or.inl rfl)
  ⟨h.1, by decide⟩

/-- Claim C8 as stated is false in its "if and only if" clause: the passthrough
condition is JavaScript truthiness of `headers.get('Access-Control-Allow-Origin')`,
and the empty string is falsy. An upstream response that *includes* the
allow-origin header with the empty value is relayed *without* it, refuting
"includes ... if and only if the upstream response included that header". -/
theorem claim_C8_counterexample :
    ¬ (("Access-Control-Allow-Origin").data ∈
        (handleProxyRequest ⟨("http://localhost:3000").data, []⟩
          ⟨some [("health").data], [], [], Except.ok []⟩ .get
          (fun _ => Except.ok
            { status := 200, corsAllowOrigin := some [],
              textResult := Except.ok ('o' :: 'k' :: []) })).headers.map
          Prod.fst) ∧
    (UpstreamResponse.corsAllowOrigin
      { status := 200, corsAllowOrigin := some [],
        textResult := Except.ok ('o' :: 'k' :: []) }).isSome = true := by
  constructor
  · decide
  · rfl

/-- Claim C8, amended: on upstream success the gateway replies with the
upstream's own status code, a JSON content type, and the
`Access-Control-Allow-Origin` header carrying the upstream's value unchanged
if and only if the upstream response included that header *with a non-empty
value* (the empty string being falsy in JavaScript, a present-but-empty header
is dropped); the gateway never invents a value the upstream did not send. -/
theorem claim_C8_success_relay (cfg : ProxyConfig) (req : InboundRequest)
    (method : Method) (oracle : FetchOracle) (r : UpstreamResponse) (raw : Str)
    (ho : oracle (buildOutboundRequest cfg req method) = Except.ok r)
    (ht : r.textResult = Except.ok raw) :
    (handleProxyRequest cfg req method oracle).status = r.status ∧
    (handleProxyRequest cfg req method oracle).headers.head? =
      some (("Content-Type").data, ("application/json").data) ∧
    (∀ v, (("Access-Control-Allow-Origin").data, v) ∈
        (handleProxyRequest cfg req method oracle).headers ↔
      (r.corsAllowOrigin = some v ∧ v ≠ [])) := by
  have hresp : handleProxyRequest cfg req method oracle =
      proxySuccessResponse r raw := by
    simp [handleProxyRequest, ho, ht]
  rw [hresp]
  refine ⟨rfl, rfl, ?_⟩
  intro v
  constructor
  · intro hmem
    simp only [proxySuccessResponse] at hmem
    rcases List.mem_cons.mp hmem with h1 | h2
    · have hfst : (("Access-Control-Allow-Origin").data : Str) =
          ("Content-Type").data := congrArg Prod.fst h1
      exact absurd hfst (by decide)
    · split at h2
      · next w heq =>
        split at h2
        · next hw =>
          have h3 := List.mem_singleton.mp h2
          have hv2 : v = w := congrArg Prod.snd h3
          subst hv2
          exact ⟨heq, hw⟩
        · next hw => exact absurd h2 (List.not_mem_nil _)
      · next heq => exact absurd h2 (List.not_mem_nil _)
  · rintro ⟨hc, hv⟩
    simp [proxySuccessResponse, hc, hv]

theorem claim_C8_witness :
    (handleProxyRequest ⟨("http://localhost:3000").data, []⟩
        ⟨some [("health").data], [], [], Except.ok []⟩ .get
        (fun _ => Except.ok
          { status := 201, corsAllowOrigin := some ('*' :: []),
            textResult := Except.ok ('o' :: 'k' :: []) })).status = 201 ∧
    ((("Access-Control-Allow-Origin").data, ('*' :: [])) ∈
        (handleProxyRequest ⟨("http://localhost:3000").data, []⟩
          ⟨some [("health").data], [], [], Except.ok []⟩ .get
          (fun _ => Except.ok
            { status := 201, corsAllowOrigin := some ('*' :: []),
              textResult := Except.ok ('o' :: 'k' :: []) })).headers ↔
      (some ('*' :: []) = some ('*' :: []) ∧ ('*' :: []) ≠ ([] : Str))) :=
  have h := claim_C8_success_relay ⟨("http://localhost:3000").data, []⟩
    ⟨some [("health").data], [], [], Except.ok []⟩ .get
    (fun _ => Except.ok
      { status := 201, corsAllowOrigin := some ('*' :: []),
        textResult := Except.ok ('o' :: 'k' :: []) })
    { status := 201, corsAllowOrigin := some ('*' :: []),
      textResult := Except.ok ('o' :: 'k' :: []) }
    ('o' :: 'k' :: []) rfl rfl
  ⟨h.1, h.2.2 ('*' :: [])⟩

/-- Claim C10 (confirmed): only the write methods (POST, PUT, PATCH) have their inbound
body read and forwarded: for every GET and DELETE the outbound call carries
no body, even when the inbound request has one; for a write method a
successfully read body is forwarded verbatim, and a failure while reading the
inbound body results in forwarding with no body — with a reachable upstream
the gateway still returns the success reply, not an error response. -/
theorem claim_C10_body_forwarding :
    (∀ (cfg : ProxyConfig) (req : InboundRequest) (method : Method),
      method = .get ∨ method = .delete →
      (buildOutboundRequest cfg req method).body = none) ∧
    (∀ (cfg : ProxyConfig) (req : InboundRequest) (method : Method) (t : Str),
      (method = .post ∨ method = .put ∨ method = .patch) →
      req.bodyText = Except.ok t →
      (buildOutboundRequest cfg req method).body = some t) ∧
    (∀ (cfg : ProxyConfig) (req : InboundRequest) (method : Method)
        (e : JsThrown),
      (method = .post ∨ method = .put ∨ method = .patch) →
      req.bodyText = Except.error e →
      (buildOutboundRequest cfg req method).body = none) ∧
    (∀ (cfg : ProxyConfig) (req : InboundRequest) (method : Method)
        (e : JsThrown) (oracle : FetchOracle) (r : UpstreamResponse)
        (raw : Str),
      req.bodyText = Except.error e →
      oracle (buildOutboundRequest cfg req method) = Except.ok r →
      r.textResult = Except.ok raw →
      handleProxyRequest cfg req method oracle =
        proxySuccessResponse r raw) := by
  refine ⟨?_, ?_, ?_, ?_⟩
  · rintro cfg req method (rfl | rfl) <;> rfl
  · rintro cfg req method t (rfl | rfl | rfl) hb <;>
      simp [buildOutboundRequest, Method.isWrite, hb]
  · rintro cfg req method e (rfl | rfl | rfl) hb <;>
      simp [buildOutboundRequest, Method.isWrite, hb]
  · intro cfg req method e oracle r raw _ ho ht
    simp [handleProxyRequest, ho, ht]

theorem claim_C10_witness :
    (buildOutboundRequest ⟨("http://localhost:3000").data, []⟩
        ⟨some [("items").data], [], [], Except.ok ('x' :: [])⟩ .delete).body =
      none ∧
    (buildOutboundRequest ⟨("http://localhost:3000").data, []⟩
        ⟨some [("items").data], [], [], Except.ok ('x' :: [])⟩ .post).body =
      some ('x' :: []) ∧
    (buildOutboundRequest ⟨("http://localhost:3000").data, []⟩
        ⟨some [("items").data], [], [], Except.error .nonError⟩ .post).body =
      none ∧
    handleProxyRequest ⟨("http://localhost:3000").data, []⟩
        ⟨some [("items").data], [], [], Except.error .nonError⟩ .post
        (fun _ => Except.ok
          { status := 200, corsAllowOrigin := none,
            textResult := Except.ok ('o' :: 'k' :: []) }) =
      proxySuccessResponse
        { status := 200, corsAllowOrigin := none,
          textResult := Except.ok ('o' :: 'k' :: []) } ('o' :: 'k' :: []) :=
  ⟨claim_C10_body_forwarding.1 _ _ .delete (Or.inr rfl),
   claim_C10_body_forwarding.2.1 _ _ .post ('x' :: []) (Or.inl rfl) rfl,
   claim_C10_body_forwarding.2.2.1 _ _ .post .nonError (Or.inl rfl) rfl,
   claim_C10_body_forwarding.2.2.2 _ _ .post .nonError _ _ ('o' :: 'k' :: [])
     rfl rfl rfl⟩

/-! ## Liveness Poller — `frontend/src/components/BackendStatus.tsx`

The component state is the three `useState` hooks (`status`, `lastChecked`,
`error`). `checkBackendStatus` is modelled as the function from the previous
state, the current time and the probe's outcome to the state left behind once
the probe completes; the intermediate `checking` phase set at the top of the
probe is not a completed-probe state. The network outcome of one probe —
a resolved response (whose `.json()` may itself throw) or a thrown value —
is an explicit parameter. -/

/-- The tri-state of the `status` hook. -/
inductive PollStatus where
  | checking | online | offline
deriving DecidableEq

/-- The Poller's visible state: `status`, `lastChecked` (a timestamp, `null`
initially) and `error` (`null` when absent). -/
structure LivenessState where
  status : PollStatus
  lastChecked : Option Nat
  error : Option Str
deriving DecidableEq

/-- The `useState` initializers: `'checking'`, `null`, `null`. -/
def initialLivenessState : LivenessState :=
  { status := .checking, lastChecked := none, error := none }

/-- A value thrown during the probe, as the catch block classifies it:
an `Error` named `AbortError` (the 5s timeout), any other `Error` with its
`message`, or a non-`Error` value. -/
inductive ProbeThrown where
  | abortError
  | errMsg (message : Str)
  | nonError
deriving DecidableEq

/-- The error string the catch block records for a thrown value. -/
def ProbeThrown.toErrorText : ProbeThrown → Str
  | .abortError => ("Request timeout").data
  | .errMsg m => m
  | .nonError => ("Failed to connect to backend").data

/-- The network outcome of one probe: a resolved response with its `status`,
`statusText` and the result of `response.json()` — abstracted to the `status`
field of the parsed body, `none` when absent or not a string — or a value
thrown by `fetch` itself. -/
inductive ProbeOutcome where
  | response (status : Nat) (statusText : Str)
      (jsonResult : Except ProbeThrown (Option Str))
  | thrown (t : ProbeThrown)

/-- The string `` `HTTP ${response.status}: ${response.statusText}` ``. -/
def httpErrorText (status : Nat) (statusText : Str) : Str :=
  ("HTTP ").data ++ Nat.toDigits 10 status ++ (": ").data ++ statusText

/-- Function `checkBackendStatus` from `BackendStatus.tsx` (lines 15-56): the state
once one probe completes. `response.ok` is `200 ≤ status < 300`; a healthy
2xx body sets `online` with a fresh `lastChecked` and no error; every other
outcome sets `offline` with a recorded error, leaving `lastChecked` as it
was. A throw from `response.json()` lands in the same catch block as a throw
from `fetch`. -/
def checkBackendStatus (now : Nat) (prev : LivenessState)
    (outcome : ProbeOutcome) : LivenessState :=
  match outcome with
  | .response status statusText jsonResult =>
    if 200 ≤ status ∧ status < 300 then
      match jsonResult with
      | .ok dataStatus =>
        if dataStatus = some (("healthy").data) then
          { status := .online, lastChecked := some now, error := none }
        else
          { status := .offline, lastChecked := prev.lastChecked,
            error := some ("Backend returned unhealthy status").data }
      | .error t =>
        { status := .offline, lastChecked := prev.lastChecked,
          error := some t.toErrorText }
    else
      { status := .offline, lastChecked := prev.lastChecked,
        error := some (httpErrorText status statusText) }
  | .thrown t =>
    { status := .offline, lastChecked := prev.lastChecked,
      error := some t.toErrorText }

/-- The recurring-schedule interval: `setInterval(..., 30000)`. -/
def pollIntervalMs : Nat := 30000

/-- The component lifecycle state relevant to scheduling: the visible
liveness state, whether the `setInterval` handle is still active, and the
time the recurring timer will next fire. -/
structure PollerLifecycle where
  live : LivenessState
  intervalActive : Bool
  nextFireAt : Option Nat
deriving DecidableEq

/-- The `useEffect` body on mount (lines 58-65): one immediate probe, then
`setInterval(checkBackendStatus, 30000)` — the first automatic fire is one
full interval after mount. -/
def mountComponent (now : Nat) (outcome : ProbeOutcome) : PollerLifecycle :=
  { live := checkBackendStatus now initialLivenessState outcome,
    intervalActive := true,
    nextFireAt := some (now + pollIntervalMs) }

/-- One fire of the recurring interval: re-run the probe and (by `setInterval`
semantics) schedule the next fire one interval later. A cleared interval no
longer fires. -/
def intervalTick (now : Nat) (outcome : ProbeOutcome)
    (s : PollerLifecycle) : PollerLifecycle :=
  if s.intervalActive then
    { live := checkBackendStatus now s.live outcome,
      intervalActive := true,
      nextFireAt := some (now + pollIntervalMs) }
  else s

/-- The Refresh button (lines 125-132): `onClick={checkBackendStatus}`,
disabled while `status === 'checking'`. It only re-runs the probe — nothing
in the handler touches the `setInterval` schedule. -/
def manualRefresh (now : Nat) (outcome : ProbeOutcome)
    (s : PollerLifecycle) : PollerLifecycle :=
  if s.live.status = .checking then s
  else { s with live := checkBackendStatus now s.live outcome }

/-- The `useEffect` cleanup: `clearInterval(interval)` on teardown. -/
def unmountComponent (s : PollerLifecycle) : PollerLifecycle :=
  { s with intervalActive := false, nextFireAt := none }

/-- Claim C4 as stated is false in its parenthetical non-emptiness clause: a
probe that throws an `Error` whose `message` is empty (not an `AbortError`)
completes as `offline` with `lastError` present but equal to the *empty*
string — the catch block records `err.message` verbatim and only substitutes
the generic text for non-`Error` throws. -/
theorem claim_C4_counterexample :
    (checkBackendStatus 0 initialLivenessState (.thrown (.errMsg []))).status =
      .offline ∧
    (checkBackendStatus 0 initialLivenessState (.thrown (.errMsg []))).error =
      some [] := by
  exact ⟨rfl, rfl⟩

/-- Claim C4, amended: after every completed probe, whatever the previous
state and outcome: if `status = online` then `lastChecked` is present and
`lastError` is absent; if `status = offline` then `lastError` is present, and
it is the empty string only when the thrown `Error` itself carried an empty
message (a `fetch` throw or a `response.json()` throw of an `Error` with
empty `message` — every other branch records one of the fixed non-empty
texts, the status line, or a non-empty message). The invariant is preserved
by every probe-outcome branch, hence holds at every point between probes. -/
theorem claim_C4_liveness_invariant (now : Nat) (prev : LivenessState)
    (outcome : ProbeOutcome) :
    ((checkBackendStatus now prev outcome).status = .online →
      ((checkBackendStatus now prev outcome).lastChecked).isSome = true ∧
      (checkBackendStatus now prev outcome).error = none) ∧
    ((checkBackendStatus now prev outcome).status = .offline →
      ((checkBackendStatus now prev outcome).error).isSome = true) ∧
    ((checkBackendStatus now prev outcome).error = some [] →
      outcome = .thrown (.errMsg []) ∨
      ∃ status statusText,
        outcome = .response status statusText (Except.error (.errMsg [])) ∧
        200 ≤ status ∧ status < 300) := by
  cases outcome with
  | response status statusText jsonResult =>
    by_cases hok : 200 ≤ status ∧ status < 300
    · cases jsonResult with
      | ok dataStatus =>
        by_cases hh : dataStatus = some (("healthy").data)
        · have hE : checkBackendStatus now prev
              (.response status statusText (Except.ok dataStatus)) =
              { status := .online, lastChecked := some now, error := none } := by
            simp [checkBackendStatus, hok, hh]
          rw [hE]
          refine ⟨fun _ => ⟨rfl, rfl⟩, ?_, ?_⟩
          · intro h
            simp at h
          · intro h
            simp at h
        · have hE : checkBackendStatus now prev
              (.response status statusText (Except.ok dataStatus)) =
              { status := .offline, lastChecked := prev.lastChecked,
                error := some ("Backend returned unhealthy status").data } := by
            simp [checkBackendStatus, hok, hh]
          rw [hE]
          refine ⟨?_, fun _ => rfl, fun h => ?_⟩
          · intro h
            simp at h
          · exact absurd (Option.some.inj h) (by decide)
      | error t =>
        have hE : checkBackendStatus now prev
            (.response status statusText (Except.error t)) =
            { status := .offline, lastChecked := prev.lastChecked,
              error := some t.toErrorText } := by
          simp [checkBackendStatus, hok]
        rw [hE]
        refine ⟨?_, fun _ => rfl, fun h => ?_⟩
        · intro h
          simp at h
        have ht := Option.some.inj h
        cases t with
        | abortError => exact absurd ht (by decide)
        | errMsg m =>
          have hm : m = [] := ht
          subst hm
          exact Or.inr ⟨status, statusText, rfl, hok.1, hok.2⟩
        | nonError => exact absurd ht (by decide)
    · have hE : checkBackendStatus now prev
          (.response status statusText jsonResult) =
          { status := .offline, lastChecked := prev.lastChecked,
            error := some (httpErrorText status statusText) } := by
        simp [checkBackendStatus, hok]
      rw [hE]
      refine ⟨?_, fun _ => rfl, fun h => ?_⟩
      · intro h
        simp at h
      have ht := Option.some.inj h
      have ht' := ht
      simp only [httpErrorText, List.append_eq_nil] at ht'
      exact absurd ht'.1.1.1 (by decide)
  | thrown t =>
    have hE : checkBackendStatus now prev (.thrown t) =
        { status := .offline, lastChecked := prev.lastChecked,
          error := some t.toErrorText } := rfl
    rw [hE]
    refine ⟨?_, fun _ => rfl, fun h => ?_⟩
    · intro h
      simp at h
    have ht := Option.some.inj h
    cases t with
    | abortError => exact absurd ht (by decide)
    | errMsg m =>
      have hm : m = [] := ht
      subst hm
      exact Or.inl rfl
    | nonError => exact absurd ht (by decide)

theorem claim_C4_witness :
    ((checkBackendStatus 7 initialLivenessState
        (.response 200 ("OK").data
          (Except.ok (some ("healthy").data)))).lastChecked).isSome = true ∧
    (checkBackendStatus 7 initialLivenessState
      (.response 200 ("OK").data
        (Except.ok (some ("healthy").data)))).error = none ∧
    (ProbeOutcome.thrown (.errMsg []) = ProbeOutcome.thrown (.errMsg []) ∨
      ∃ status statusText, ProbeOutcome.thrown (.errMsg []) =
        .response status statusText (Except.error (.errMsg [])) ∧
        200 ≤ status ∧ status < 300) :=
  have h1 := (claim_C4_liveness_invariant 7 initialLivenessState
    (.response 200 ("OK").data (Except.ok (some ("healthy").data)))).1 rfl
  have h3 := (claim_C4_liveness_invariant 0 initialLivenessState
    (.thrown (.errMsg []))).2.2 rfl
  ⟨h1.1, h1.2, h3⟩

/-- Claim C5 (confirmed): classification of a single probe outcome: a 2xx response whose
JSON body carries `status: "healthy"` yields `online` with `lastChecked` set
to the probe time and no error; a non-2xx response yields `offline` with an
error of the form `HTTP <status>: <statusText>`, which contains the status
code's digits; an aborted probe yields `offline` with `"Request timeout"`;
any other thrown `Error` yields `offline` with the error's own message, and a
non-`Error` throw yields the generic `"Failed to connect to backend"`. -/
theorem claim_C5_probe_classification :
    (∀ (now : Nat) (prev : LivenessState) (status : Nat) (statusText : Str),
      200 ≤ status → status < 300 →
      checkBackendStatus now prev
          (.response status statusText (Except.ok (some ("healthy").data))) =
        { status := .online, lastChecked := some now, error := none }) ∧
    (∀ (now : Nat) (prev : LivenessState) (status : Nat) (statusText : Str)
        (jsonResult : Except ProbeThrown (Option Str)),
      ¬ (200 ≤ status ∧ status < 300) →
      checkBackendStatus now prev (.response status statusText jsonResult) =
        { status := .offline, lastChecked := prev.lastChecked,
          error := some (httpErrorText status statusText) } ∧
      charsIncludes (Nat.toDigits 10 status)
        (httpErrorText status statusText) = true) ∧
    (∀ (now : Nat) (prev : LivenessState),
      checkBackendStatus now prev (.thrown .abortError) =
        { status := .offline, lastChecked := prev.lastChecked,
          error := some ("Request timeout").data }) ∧
    (∀ (now : Nat) (prev : LivenessState) (m : Str),
      checkBackendStatus now prev (.thrown (.errMsg m)) =
        { status := .offline, lastChecked := prev.lastChecked,
          error := some m }) ∧
    (∀ (now : Nat) (prev : LivenessState),
      checkBackendStatus now prev (.thrown .nonError) =
        { status := .offline, lastChecked := prev.lastChecked,
          error := some ("Failed to connect to backend").data }) := by
  refine ⟨?_, ?_, ?_, ?_, ?_⟩
  · intro now prev status statusText h1 h2
    simp [checkBackendStatus, h1, h2]
  · intro now prev status statusText jsonResult hok
    refine ⟨by simp [checkBackendStatus, hok], ?_⟩
    exact (charsIncludes_iff _ _).mpr
      ⟨("HTTP ").data, (": ").data ++ statusText,
        by simp [httpErrorText, List.append_assoc]⟩
  · intro now prev; rfl
  · intro now prev m; rfl
  · intro now prev; rfl

theorem claim_C5_witness :
    checkBackendStatus 7 initialLivenessState
        (.response 200 ("OK").data (Except.ok (some ("healthy").data))) =
      { status := .online, lastChecked := some 7, error := none } ∧
    checkBackendStatus 7 initialLivenessState
        (.response 503 ("Service Unavailable").data
          (Except.ok none)) =
      { status := .offline, lastChecked := none,
        error := some (httpErrorText 503 ("Service Unavailable").data) } ∧
    charsIncludes (Nat.toDigits 10 503)
      (httpErrorText 503 ("Service Unavailable").data) = true ∧
    checkBackendStatus 7 initialLivenessState (.thrown .abortError) =
      { status := .offline, lastChecked := none,
        error := some ("Request timeout").data } :=
  have h2 := claim_C5_probe_classification.2.1 7 initialLivenessState 503
    ("Service Unavailable").data (Except.ok none) (by decide)
  ⟨claim_C5_probe_classification.1 7 initialLivenessState 200 ("OK").data
      (by decide) (by decide),
   h2.1, h2.2,
   claim_C5_probe_classification.2.2.1 7 initialLivenessState⟩

/-- Claim C9 as stated is false in its schedule-reset clause: the Refresh
button's handler only calls the probe function; nothing in it touches the
`setInterval` schedule, so the recurring timer's next fire time is unchanged
by a manual probe. Mounting at time 0 schedules the next automatic fire at
30000; a manual probe at 29999 leaves that fire time at 30000 — 1 ms later —
rather than resetting it to 29999 + 30000, so the recurring timer can fire
back-to-back with a manual probe. -/
theorem claim_C9_counterexample :
    (manualRefresh 29999 (.thrown .abortError)
        (mountComponent 0 (.thrown .abortError))).nextFireAt = some 30000 ∧
    (manualRefresh 29999 (.thrown .abortError)
        (mountComponent 0 (.thrown .abortError))).nextFireAt ≠
      some (29999 + pollIntervalMs) ∧
    (manualRefresh 29999 (.thrown .abortError)
        (mountComponent 0 (.thrown .abortError))).live =
      checkBackendStatus 29999
        (mountComponent 0 (.thrown .abortError)).live (.thrown .abortError) := by
  refine ⟨rfl, by decide, rfl⟩

/-- Claim C9, amended: a manual trigger (allowed whenever the poller is not
mid-probe) re-runs the same probe logic immediately but leaves the recurring
schedule untouched — its next-tick reference point is *not* reset, so the
recurring timer may fire back-to-back with a manual probe. Mounting runs one
immediate probe and schedules the first automatic fire one interval later;
every interval fire re-runs the probe and reschedules; teardown of the owning
context cancels the recurring interval. -/
theorem claim_C9_lifecycle :
    (∀ (now : Nat) (outcome : ProbeOutcome) (s : PollerLifecycle),
      s.live.status ≠ .checking →
      (manualRefresh now outcome s).live =
        checkBackendStatus now s.live outcome ∧
      (manualRefresh now outcome s).intervalActive = s.intervalActive ∧
      (manualRefresh now outcome s).nextFireAt = s.nextFireAt) ∧
    (∀ (now : Nat) (outcome : ProbeOutcome),
      (mountComponent now outcome).live =
        checkBackendStatus now initialLivenessState outcome ∧
      (mountComponent now outcome).intervalActive = true ∧
      (mountComponent now outcome).nextFireAt =
        some (now + pollIntervalMs)) ∧
    (∀ (now : Nat) (outcome : ProbeOutcome) (s : PollerLifecycle),
      s.intervalActive = true →
      (intervalTick now outcome s).live =
        checkBackendStatus now s.live outcome ∧
      (intervalTick now outcome s).nextFireAt =
        some (now + pollIntervalMs)) ∧
    (∀ s : PollerLifecycle,
      (unmountComponent s).intervalActive = false ∧
      (unmountComponent s).nextFireAt = none) := by
  refine ⟨?_, ?_, ?_, ?_⟩
  · intro now outcome s hs
    simp [manualRefresh, hs]
  · intro now outcome
    exact ⟨rfl, rfl, rfl⟩
  · intro now outcome s hs
    simp [intervalTick, hs]
  · intro s
    exact ⟨rfl, rfl⟩

theorem claim_C9_witness :
    (manualRefresh 40000 (.thrown .abortError)
        (PollerLifecycle.mk
          (LivenessState.mk .offline none (some ("Request timeout").data))
          true (some 60000))).live =
      checkBackendStatus 40000
        (LivenessState.mk .offline none (some ("Request timeout").data))
        (.thrown .abortError) ∧
    (manualRefresh 40000 (.thrown .abortError)
        (PollerLifecycle.mk
          (LivenessState.mk .offline none (some ("Request timeout").data))
          true (some 60000))).nextFireAt = some 60000 :=
  have h := claim_C9_lifecycle.1 40000 (.thrown .abortError)
    (PollerLifecycle.mk
      (LivenessState.mk .offline none (some ("Request timeout").data))
      true (some 60000)) (by decide)
  ⟨h.1, h.2.2⟩

end SignadotExample
